import Mathlib

/-!
# Spirit: a verification development

A shallow embedding of the actor runtime (`spirit.go`), the component factory
table (`component/component.go`), the session view over a context
(`mail/envelope.go`) and the queue component (`component/mns/mns.go`).

Conventions of the embedding

* A Go `map[string]V` is an association list with one entry per key; `range`
  over the map visits the entries in list order.  Go leaves the order
  unspecified, and every statement below is proved for every list, hence for
  every order.
* A call into a collaborator whose code is outside the embedded files (an
  actor's `Start`, the postman's `Post`, the queue client's `SendMessage`) is
  an entry of an event trace; its result is a parameter of the model.
* A Go pointer is an index into an explicit heap.
* A Go `panic` is an explicit outcome.
-/

set_option autoImplicit false

namespace GoSpirit

/-! ## Go maps keyed by strings -/

/-- Lookup `m[k]` with the comma-ok result: `none` when the key is absent. -/
def mapGet {V : Type} : List (String × V) → String → Option V
  | [], _ => none
  | (k1, v) :: rest, k => if k1 = k then some v else mapGet rest k

/-- Assignment `m[k] = v`: an existing entry is overwritten in place, a new key
gets a new entry. -/
def mapSet {V : Type} : List (String × V) → String → V → List (String × V)
  | [], k, v => [(k, v)]
  | (k1, v1) :: rest, k, v =>
      if k1 = k then (k, v) :: rest else (k1, v1) :: mapSet rest k v

/-- Keys of a map, in iteration order. -/
def mapKeys {V : Type} (m : List (String × V)) : List String :=
  m.map Prod.fst

/-! ## Errors -/

/-- Error values the runtime creates itself, and errors handed back by
collaborators (identified by their message). -/
inductive Error where
  /-- The package variable `ErrNameIsEmpty` of `spirit.go`. -/
  | ErrNameIsEmpty
  /-- `errors.New("component driver name is empty")` in `NewActor`. -/
  | componentDriverNameEmpty
  /-- `fmt.Errorf("component driver '%s' not exist", driver)` in `NewComponent`. -/
  | componentDriverNotExist (driver : String)
  /-- `fmt.Errorf("the driver of worker is empty", name)` in `newWorker`. -/
  | workerDriverEmpty (name : String)
  /-- `fmt.Errorf("parse port to url failure")` in `sendMessage`. -/
  | parsePortUrlFailure
  /-- `fmt.Errorf("queue name is empty")` in `sendMessage`. -/
  | queueNameEmpty
  /-- `fmt.Errorf("error mns send params in msn component, port to url: %s", to)`. -/
  | mnsSendParams (url : String)
  /-- An error returned by a collaborator. -/
  | external (msg : String)
  deriving DecidableEq, Repr

/-- Outcome of a Go procedure that may panic: the state it leaves behind and
the panic message, if any. -/
structure Outcome (σ : Type) where
  state : σ
  panicked : Option String

/-! ## component/component.go -/

namespace component

/-- The two package variables `components` and `componentNames`. -/
structure Table (F : Type) where
  components : List (String × F)
  componentNames : List String

/-- `RegisterComponent(name, fn)`; a nil `fn` is `none`. -/
def RegisterComponent {F : Type} (t : Table F) (name : String) (fn : Option F) :
    Outcome (Table F) :=
  if name.length = 0 then
    { state := t, panicked := some "component name is empty" }
  else
    match fn with
    | none => { state := t, panicked := some "component fn is nil" }
    | some f =>
      match mapGet t.components name with
      | some _ =>
        { state := t, panicked := some ("component already registered: " ++ name) }
      | none =>
        { state :=
            { components := mapSet t.components name f
              componentNames := t.componentNames ++ [name] }
          panicked := none }

end component

/-! ## Configuration objects (github.com/gogap/config)

The library is outside the repository.  The runtime only reads a configuration,
through `GetConfig`, `Keys` and `GetString`; a configuration is taken as the
triple of these three readers, with no assumption on how paths are resolved. -/

/-- A configuration object, given by its readers. -/
inductive Configuration where
  | mk (getConfig : String → Option Configuration) (keys : List String)
      (getString : String → Option String)

namespace Configuration

/-- `c.GetConfig(path)`; `none` is the nil configuration. -/
def GetConfig : Configuration → String → Option Configuration
  | mk g _ _, path => g path

/-- `c.Keys()`. -/
def Keys : Configuration → List String
  | mk _ ks _ => ks

/-- `c.GetString(path, dflt)`. -/
def GetString : Configuration → String → String → String
  | mk _ _ s, path, dflt => (s path).getD dflt

/-- `config.NewConfig()`: the empty configuration. -/
def NewConfig : Configuration :=
  mk (fun _ => none) [] (fun _ => none)

end Configuration

namespace component

/-- `component.Options`; the postman and the cache are object identities. -/
structure Options where
  Postman : Option Nat
  Cache : Option Nat
  Config : Option Configuration

/-- A functional option `func(o *Options)`. -/
abbrev OptionFn := Options → Options

/-- `component.Postman(man)`. -/
def Postman (man : Nat) : OptionFn :=
  fun p => { p with Postman := some man }

/-- `component.Cache(c)`, as `NewActor` calls it. -/
def Cache (c : Nat) : OptionFn :=
  fun p => { p with Cache := some c }

/-- `component.Config(conf)`; `conf` may be nil. -/
def Config (conf : Option Configuration) : OptionFn :=
  fun p => { p with Config := conf }

/-- `NewComponentFunc`: a factory from the options to a component or an error. -/
abbrev NewComponentFunc (C : Type) := List OptionFn → Except Error C

/-- `NewComponent(driver, opts...)`: look the driver up in the factory table
and run its factory on the options. -/
def NewComponent {C : Type} (components : List (String × NewComponentFunc C))
    (driver : String) (opts : List OptionFn) : Except Error C :=
  match mapGet components driver with
  | none => .error (.componentDriverNotExist driver)
  | some fn => fn opts

end component

/-! ## options.go and the actor options -/

/-- `WorkerOptions`; the handler is identified with the component whose
`Handler()` produced it. -/
structure WorkerOptions (C : Type) where
  Url : String
  Handler : Option C

/-- `WorkerOption`. -/
abbrev WorkerOption (C : Type) := WorkerOptions C → WorkerOptions C

/-- `WorkerUrl(url)`. -/
def WorkerUrl {C : Type} (url : String) : WorkerOption C :=
  fun w => { w with Url := url }

/-- `WorkerHandler(h)`. -/
def WorkerHandler {C : Type} (h : C) : WorkerOption C :=
  fun w => { w with Handler := some h }

/-- `Options` of `options.go`. -/
structure Options where
  config : Configuration

/-- `Option` of `options.go`: `func(*Options)`. -/
abbrev OptionFn := Options → Options

/-- `ActorOptions`, with the three fields `NewActor` reads. -/
structure ActorOptions where
  url : String
  componentDriver : String
  componentOptions : List component.OptionFn

/-- `ActorOption`. -/
abbrev ActorOption := ActorOptions → ActorOptions

/-- Modelled from the spec: `ActorComponent(driver, opts...)` is declared outside
the embedded files.  It names the driver whose factory builds the component of a
configured `(driver, name)` pair and hands over the scoped configuration
options. -/
def ActorComponent (driver : String) (opts : List component.OptionFn) : ActorOption :=
  fun a => { a with componentDriver := driver, componentOptions := a.componentOptions ++ opts }

/-! ## spirit.go -/

/-- `Actor`: one worker paired with one component. -/
structure Actor (C W : Type) where
  worker : W
  component : C
  deriving DecidableEq

/-- The collaborators of assembly whose code is outside the embedded files. -/
structure Collaborators (C W : Type) where
  /-- The factory table `component.components` at assembly time. -/
  components : List (String × component.NewComponentFunc C)
  /-- `worker.New(driver, worker.Postman(postman), worker.Handler(h))`. -/
  workerNew : String → Nat → Option C → Except Error W
  /-- The error of `mail.NewMailbox(driver, MailboxUrl(url), MailboxMessageInvoker(wk))`. -/
  newMailbox : String → String → W → Option Error
  /-- The error of `mail.NewRegistry("tiny")`. -/
  newRegistry : Option Error
  /-- `mail.NewPostman("tiny", mail.PostmanRegistry(reg))`. -/
  newPostman : Except Error Nat
  /-- The cache `cache.NewCache("go-cache", ...)` returns; its error is not checked. -/
  newCache : Option Configuration → Nat

/-- Modelled from the spec: the registry is declared outside the embedded files.
`Register` fails with a duplicate-address error if the address is already
bound, and binds it otherwise.  A registry is the list of its bound addresses. -/
def registryRegister (reg : List String) (url : String) : Except Error (List String) :=
  if url ∈ reg then .error (.external ("duplicate address: " ++ url)) else .ok (reg ++ [url])

/-- The `Spirit` struct.  `calls` is a ghost field: the `(driver, name)` pairs
`NewActor` has been invoked with, oldest first. -/
structure Spirit (C W : Type) where
  postman : Nat
  reg : List String
  cache : Nat
  workers : List (String × W)
  actors : List (String × Actor C W)
  conf : Configuration
  calls : List (String × String)

namespace Spirit

/-- `newWorker(name, opts...)`. -/
def newWorker {C W : Type} (env : Collaborators C W) (p : Spirit C W) (name : String)
    (opts : List (WorkerOption C)) : Spirit C W × Except Error W :=
  if name.length = 0 then
    (p, .error .ErrNameIsEmpty)
  else
    let key := "workers." ++ name
    let driver := p.conf.GetString (key ++ ".driver") "fbp"
    if driver.length = 0 then
      (p, .error (.workerDriverEmpty name))
    else
      let workerOptions : WorkerOptions C :=
        opts.foldl (fun w o => o w) { Url := "spirit://workers/" ++ name, Handler := none }
      match env.workerNew driver p.postman workerOptions.Handler with
      | .error e => (p, .error e)
      | .ok newWk =>
        let mailboxDriver := p.conf.GetString (key ++ "mail.mailbox.driver") "unbounded"
        match env.newMailbox mailboxDriver workerOptions.Url newWk with
        | some e => (p, .error e)
        | none =>
          match registryRegister p.reg workerOptions.Url with
          | .error e => (p, .error e)
          | .ok reg => ({ p with reg := reg }, .ok newWk)

/-- The address `fmt.Sprintf("spirit://actors/%s/%s", driver, name)`. -/
def actorUrl (driver name : String) : String :=
  "spirit://actors/" ++ driver ++ "/" ++ name

/-- `NewActor(name, opts...)`.  The call of `warnNoDocsComp` only writes log
lines and is left out; `p` is `p0` with the invocation appended to the ghost
field `calls`. -/
def NewActor {C W : Type} (env : Collaborators C W) (p0 : Spirit C W) (name : String)
    (opts : List ActorOption) : Spirit C W × Except Error (Actor C W) :=
  let actOpts0 : ActorOptions :=
    opts.foldl (fun a o => o a) { url := "", componentDriver := "", componentOptions := [] }
  let p := { p0 with calls := p0.calls ++ [(actOpts0.componentDriver, name)] }
  if actOpts0.componentDriver.length = 0 then
    (p, .error .componentDriverNameEmpty)
  else
    let actOpts : ActorOptions :=
      if actOpts0.url.length = 0 then
        { actOpts0 with url := actorUrl actOpts0.componentDriver name }
      else actOpts0
    let componentConf : Configuration :=
      match p.conf.GetConfig ("components." ++ actOpts.componentDriver ++ "." ++ name) with
      | none => Configuration.NewConfig
      | some c => c
    let compOptions : List component.OptionFn :=
      [component.Postman p.postman, component.Cache p.cache,
        component.Config (some componentConf)] ++ actOpts.componentOptions
    match component.NewComponent env.components actOpts.componentDriver compOptions with
    | .error e => (p, .error e)
    | .ok comp =>
      match newWorker env p name [WorkerUrl actOpts.url, WorkerHandler comp] with
      | (p1, .error e) => (p1, .error e)
      | (p1, .ok wk) =>
        let act : Actor C W := { worker := wk, component := comp }
        ({ p1 with actors := mapSet p1.actors name act }, .ok act)

/-- The inner loop of `generateActors`, over the actor names of one driver. -/
def generateActorsNames {C W : Type} (env : Collaborators C W) (driver : String)
    (driverConf : Configuration) : List String → Spirit C W → Spirit C W × Option Error
  | [], p => (p, none)
  | actName :: rest, p =>
    match NewActor env p actName
        [ActorComponent driver [component.Config (driverConf.GetConfig actName)]] with
    | (p1, .error e) => (p1, some e)
    | (p1, .ok _) => generateActorsNames env driver driverConf rest p1

/-- The outer loop of `generateActors`, over the drivers. -/
def generateActorsDrivers {C W : Type} (env : Collaborators C W)
    (componentsConf : Configuration) : List String → Spirit C W → Spirit C W × Option Error
  | [], p => (p, none)
  | driver :: rest, p =>
    match componentsConf.GetConfig driver with
    | none => generateActorsDrivers env componentsConf rest p
    | some driverConf =>
      let actorNames := driverConf.Keys
      if actorNames.length = 0 then
        generateActorsDrivers env componentsConf rest p
      else
        match generateActorsNames env driver driverConf actorNames p with
        | (p1, some e) => (p1, some e)
        | (p1, none) => generateActorsDrivers env componentsConf rest p1

/-- `generateActors()`. -/
def generateActors {C W : Type} (env : Collaborators C W) (p : Spirit C W) :
    Spirit C W × Option Error :=
  match p.conf.GetConfig "components" with
  | none => (p, none)
  | some componentsConf =>
    let drivers := componentsConf.Keys
    if drivers.length = 0 then (p, none)
    else generateActorsDrivers env componentsConf drivers p

/-- The options of `New` after its loop `for _, o := range opts { o(spiritOpts) }`,
starting from `&Options{config: config.NewConfig()}`. -/
def applyOptions (opts : List OptionFn) : Options :=
  opts.foldl (fun o f => f o) { config := Configuration.NewConfig }

/-- `New(opts...)`: the runtime (nil on failure) and the error. -/
def New {C W : Type} (env : Collaborators C W) (opts : List OptionFn) :
    Option (Spirit C W) × Option Error :=
  let spiritOpts : Options := applyOptions opts
  match env.newRegistry with
  | some e => (none, some e)
  | none =>
    match env.newPostman with
    | .error e => (none, some e)
    | .ok man =>
      let defaultCache := env.newCache (spiritOpts.config.GetConfig "cache")
      let sp : Spirit C W :=
        { reg := [], postman := man, cache := defaultCache, workers := [], actors := [],
          conf := spiritOpts.config, calls := [] }
      match generateActors env sp with
      | (_, some e) => (none, some e)
      | (sp1, none) => (some sp1, none)

/-- A call into a collaborator made by `Start` or `Stop`. -/
inductive Event (C W : Type) where
  | actorStart (name : String) (act : Actor C W)
  | actorStop (name : String) (act : Actor C W)
  | postmanStart (postman : Nat)

/-- The loop of `Start`: the calls made and the error that ended the loop. -/
def startActors {C W : Type} (actStart : String → Actor C W → Option Error) :
    List (String × Actor C W) → List (Event C W) × Option Error
  | [] => ([], none)
  | (name, act) :: rest =>
    match actStart name act with
    | some e => ([.actorStart name act], some e)
    | none =>
      let r := startActors actStart rest
      (.actorStart name act :: r.1, r.2)

/-- `Start()`: the calls made, in order, and the returned error.  `actStart` is
the result of each actor's `Start`, `postmanStart` that of the postman's. -/
def Start {C W : Type} (actStart : String → Actor C W → Option Error)
    (postmanStart : Nat → Option Error) (p : Spirit C W) :
    List (Event C W) × Option Error :=
  match startActors actStart p.actors with
  | (tr, some e) => (tr, some e)
  | (tr, none) =>
    match postmanStart p.postman with
    | some e => (tr ++ [.postmanStart p.postman], some e)
    | none => (tr ++ [.postmanStart p.postman], none)

/-- The loop of `Stop`: the result of each actor's `Stop` is dropped. -/
def stopActors {C W : Type} (actStop : String → Actor C W → Option Error) :
    List (String × Actor C W) → List (Event C W)
  | [] => []
  | (name, act) :: rest =>
    let _dropped := actStop name act
    .actorStop name act :: stopActors actStop rest

/-- `Stop()`: the calls made, in order, and the returned error. -/
def Stop {C W : Type} (actStop : String → Actor C W → Option Error) (p : Spirit C W) :
    List (Event C W) × Option Error :=
  (stopActors actStop p.actors, none)

end Spirit

/-! ## The configured pairs -/

/-- A configured `(driver, name)` pair together with its scoped configuration
`components.<driver>.<name>` (nil when absent). -/
abbrev Entry := String × String × Option Configuration

/-- The entries below the drivers `drivers` of the `components` object. -/
def driverEntries (componentsConf : Configuration) : List String → List Entry
  | [] => []
  | driver :: rest =>
    (match componentsConf.GetConfig driver with
      | none => []
      | some driverConf =>
        driverConf.Keys.map (fun actName => (driver, actName, driverConf.GetConfig actName)))
    ++ driverEntries componentsConf rest

/-- The configured `(driver, name)` pairs of a configuration, in the order of
`Keys()`: every name under every driver of the `components` object. -/
def configuredEntries (conf : Configuration) : List Entry :=
  match conf.GetConfig "components" with
  | none => []
  | some componentsConf => driverEntries componentsConf componentsConf.Keys

/-- The `(driver, name)` pair of an entry. -/
def Entry.pair (x : Entry) : String × String := (x.1, x.2.1)

/-- Assembly as the specification words it: `NewActor` for one configured pair
after the other, stopping at the first error. -/
def assemble {C W : Type} (env : Collaborators C W) :
    List Entry → Spirit C W → Spirit C W × Option Error
  | [], p => (p, none)
  | x :: rest, p =>
    match Spirit.NewActor env p x.2.1 [ActorComponent x.1 [component.Config x.2.2]] with
    | (p1, .error e) => (p1, some e)
    | (p1, .ok _) => assemble env rest p1

/-- A pair with a configuration error: an empty driver name, a driver that is
not in the factory table, or an empty actor name. -/
def badPair {C W : Type} (env : Collaborators C W) (driver name : String) : Prop :=
  driver = "" ∨ (mapGet env.components driver).isNone = true ∨ name = ""

instance badPairDecidable {C W : Type} (env : Collaborators C W) (driver name : String) :
    Decidable (badPair env driver name) := by
  unfold badPair
  infer_instance

/-- The option list `compOptions` that `NewActor` builds for the factory of the
pair `(driver, name)` when called with `ActorComponent(driver, copts...)`. -/
def factoryOptions {C W : Type} (p : Spirit C W) (driver name : String)
    (copts : List component.OptionFn) : List component.OptionFn :=
  [component.Postman p.postman, component.Cache p.cache,
    component.Config (some
      (match p.conf.GetConfig ("components." ++ driver ++ "." ++ name) with
        | none => Configuration.NewConfig
        | some c => c))] ++ copts

/-- The runtime `New` hands to `generateActors`. -/
def initialSpirit {C W : Type} (env : Collaborators C W) (opts : List OptionFn)
    (man : Nat) : Spirit C W :=
  { reg := [], postman := man,
    cache := env.newCache ((Spirit.applyOptions opts).config.GetConfig "cache"),
    workers := [], actors := [],
    conf := (Spirit.applyOptions opts).config,
    calls := [] }

/-! ## Contexts and sessions (mail/envelope.go) -/

/-- `worker.CtxValuePort`: the destination of the current hop and its metadata
mapping. -/
structure CtxValuePort where
  To : String
  Metadata : List (String × String)
  deriving DecidableEq

/-- Context keys: the three private key types of package `mail`, the port key
of package `worker`, and any other key. -/
inductive Key where
  | ctxKeyPayload
  | ctxKeyFrom
  | ctxKeyTo
  | CtxKeyPort
  | other (n : Nat)
  deriving DecidableEq

/-- A dynamically typed value (`interface{}`): nil, a string, a payload
pointer, a port pointer, or a value of some other type. -/
inductive Any (P : Type) where
  | nil
  | str (s : String)
  | payload (p : P)
  | port (v : CtxValuePort)
  | other (n : Nat)
  deriving DecidableEq

/-- Modelled from the spec: the context package is declared outside the embedded
files.  A context is a mapping from opaque key to opaque value; the bindings are
listed newest first. -/
structure Context (P : Type) where
  values : List (Key × Any P)

namespace Context

/-- Modelled from the spec: `context.NewContext()` has no binding. -/
def NewContext {P : Type} : Context P :=
  { values := [] }

/-- The newest binding of `k` in a list of bindings, nil when there is none. -/
def find {P : Type} : List (Key × Any P) → Key → Any P
  | [], _ => .nil
  | (k1, v) :: rest, k => if k1 = k then v else find rest k

/-- Modelled from the spec: `Value(k)` is the value last stored under `k`, nil
when nothing was stored. -/
def Value {P : Type} (c : Context P) (k : Key) : Any P :=
  find c.values k

/-- Modelled from the spec: `WithValue(k, v)` stores a binding visible to
subsequent `Value(k)` calls on the same context. -/
def WithValue {P : Type} (c : Context P) (k : Key) (v : Any P) : Context P :=
  { values := (k, v) :: c.values }

/-- Modelled from the spec: `Copy()` returns a new context whose key/value
snapshot matches the parent's at copy time. -/
def Copy {P : Type} (c : Context P) : Context P :=
  { values := c.values }

end Context

/-- The heap of contexts: `next` is the first unused address. -/
structure Heap (P : Type) where
  next : Nat
  cell : Nat → Context P

namespace Heap

/-- Allocate a new context; its address is the old `next`. -/
def alloc {P : Type} (h : Heap P) (c : Context P) : Nat × Heap P :=
  (h.next, { next := h.next + 1, cell := fun i => if i = h.next then c else h.cell i })

/-- Overwrite the context at address `a`. -/
def write {P : Type} (h : Heap P) (a : Nat) (c : Context P) : Heap P :=
  { h with cell := fun i => if i = a then c else h.cell i }

/-- The heap with no context allocated. -/
def empty {P : Type} : Heap P :=
  { next := 0, cell := fun _ => Context.NewContext }

end Heap

namespace mail

/-- `defaultSession`: a pointer to its context. -/
structure defaultSession where
  ctx : Nat
  deriving DecidableEq

/-- `SessionOptions`; a nil context is `none`. -/
structure SessionOptions where
  context : Option Nat

/-- `SessionContext(context)`. -/
def SessionContext (context : Nat) : SessionOptions → SessionOptions :=
  fun _ => { context := some context }

/-- `NewSession(opts...)`. -/
def NewSession {P : Type} (opts : List (SessionOptions → SessionOptions)) (h : Heap P) :
    defaultSession × Heap P :=
  let sOpts : SessionOptions := opts.foldl (fun s o => o s) { context := none }
  match sOpts.context with
  | none =>
    let r := h.alloc Context.NewContext
    ({ ctx := r.1 }, r.2)
  | some c => ({ ctx := c }, h)

/-- `From()`. -/
def From {P : Type} (p : defaultSession) (h : Heap P) : String :=
  match (h.cell p.ctx).Value .ctxKeyFrom with
  | .str s => s
  | _ => ""

/-- `To()`. -/
def To {P : Type} (p : defaultSession) (h : Heap P) : String :=
  match (h.cell p.ctx).Value .ctxKeyTo with
  | .str s => s
  | _ => ""

/-- `Value(key)`. -/
def Value {P : Type} (p : defaultSession) (key : Key) (h : Heap P) : Any P :=
  (h.cell p.ctx).Value key

/-- `Payload()`. -/
def Payload {P : Type} (p : defaultSession) (h : Heap P) : Any P :=
  (h.cell p.ctx).Value .ctxKeyPayload

/-- `WithPayload(payload)`. -/
def WithPayload {P : Type} (p : defaultSession) (payload : Any P) (h : Heap P) : Heap P :=
  h.write p.ctx ((h.cell p.ctx).WithValue .ctxKeyPayload payload)

/-- `Fork()`. -/
def Fork {P : Type} (p : defaultSession) (h : Heap P) : defaultSession × Heap P :=
  let r := h.alloc (h.cell p.ctx).Copy
  ({ ctx := r.1 }, r.2)

/-- `WithFromTo(from, to)`. -/
def WithFromTo {P : Type} (p : defaultSession) (src dst : String) (h : Heap P) : Heap P :=
  let h1 := h.write p.ctx ((h.cell p.ctx).WithValue .ctxKeyFrom (.str src))
  h1.write p.ctx ((h1.cell p.ctx).WithValue .ctxKeyTo (.str dst))

/-- `WithValue(key, value)`. -/
def WithValue {P : Type} (p : defaultSession) (key : Key) (value : Any P) (h : Heap P) :
    Heap P :=
  h.write p.ctx ((h.cell p.ctx).WithValue key value)

/-- One of the three mutating calls of a session. -/
inductive Call (P : Type) where
  | withValue (key : Key) (value : Any P)
  | withFromTo (src dst : String)
  | withPayload (payload : Any P)

/-- Run one mutating call on the session `p`. -/
def runCall {P : Type} (p : defaultSession) (c : Call P) (h : Heap P) : Heap P :=
  match c with
  | .withValue key value => WithValue p key value h
  | .withFromTo src dst => WithFromTo p src dst h
  | .withPayload payload => WithPayload p payload h

/-- Run a sequence of mutating calls on the session `p`, first call first. -/
def runCalls {P : Type} (p : defaultSession) : List (Call P) → Heap P → Heap P
  | [], h => h
  | c :: rest, h => runCalls p rest (runCall p c h)

end mail

/-! ## component/mns/mns.go -/

namespace mns

/-- A port of a payload's route graph, with its `GetUrl()` and metadata. -/
structure Port where
  Url : String
  Metadata : List (String × String)
  deriving DecidableEq

/-- `port.GetUrl()`. -/
def Port.GetUrl (port : Port) : String := port.Url

/-- The payload operations of package `protocol` the component calls; the
package is outside the embedded files, so they are parameters. -/
structure Protocol (P : Type) where
  /-- `protocol.Unmarshal(body, payload)` on a new payload. -/
  Unmarshal : List Nat → Except Error P
  /-- `payload.GetGraph().CurrentPort()`. -/
  CurrentPort : P → Except Error Port
  /-- `payload.ToBytes()`. -/
  ToBytes : P → Except Error (List Nat)

/-- `postMessage(resp)`: the heap it leaves and the sessions handed to
`Postman.Post`, in order.  `post` is the result of `Postman.Post`. -/
def postMessage {P : Type} (proto : Protocol P)
    (post : mail.defaultSession → Heap P → Option Error) (messageBody : List Nat)
    (h : Heap P) : Heap P × List mail.defaultSession :=
  match proto.Unmarshal messageBody with
  | .error _ => (h, [])
  | .ok payload =>
    match proto.CurrentPort payload with
    | .error _ => (h, [])
    | .ok port =>
      let r := mail.NewSession [] h
      let session := r.1
      let h1 := mail.WithPayload session (.payload payload) r.2
      let h2 := mail.WithFromTo session "" port.GetUrl h1
      match post session h2 with
      | some _ => (h2, [session])
      | none => (h2, [session])

/-- The three configured defaults of `MNSComponent`. -/
structure MNSComponent where
  endpoint : String
  accessKeyId : String
  accessKeySecret : String

/-- What `sendMessage` hands to the queue client: the client parameters, the
queue name and the `MessageSendRequest`. -/
structure SendRequest where
  endpoint : String
  accessKeyId : String
  accessKeySecret : String
  queueName : String
  MessageBody : List Nat
  Priority : Nat
  deriving DecidableEq

/-- `url.Parse` and `URL.Query().Get` of the standard library, as parameters. -/
structure UrlLib (U : Type) where
  Parse : String → Except Error U
  QueryGet : U → String → String

/-- Result of `sendMessage`: whether a type assertion panicked, the returned
error, and the requests handed to `queue.SendMessage`. -/
structure SendOutcome where
  panicked : Bool
  err : Option Error
  sent : List SendRequest
  deriving DecidableEq

/-- `sendMessage(session)`.  `send` is the error of `queue.SendMessage`. -/
def sendMessage {P U : Type} (lib : UrlLib U) (proto : Protocol P)
    (send : SendRequest → Option Error) (p : MNSComponent) (session : mail.defaultSession)
    (h : Heap P) : SendOutcome :=
  match mail.Value session .CtxKeyPort h with
  | .port port =>
    match lib.Parse port.To with
    | .error _ => { panicked := false, err := some .parsePortUrlFailure, sent := [] }
    | .ok toURL =>
      let queueName := lib.QueryGet toURL "queue"
      if queueName.length = 0 then
        { panicked := false, err := some .queueNameEmpty, sent := [] }
      else
        let endpoint :=
          match mapGet port.Metadata "endpoint" with
          | some v => v
          | none => p.endpoint
        let akId :=
          match mapGet port.Metadata "access-key-id" with
          | some v => v
          | none => p.accessKeyId
        let akSecret :=
          match mapGet port.Metadata "access-key-secret" with
          | some v => v
          | none => p.accessKeySecret
        if endpoint.length = 0 ∨ akId.length = 0 ∨ akSecret.length = 0 then
          { panicked := false, err := some (.mnsSendParams port.To), sent := [] }
        else
          match mail.Payload session h with
          | .payload payload =>
            match proto.ToBytes payload with
            | .error e => { panicked := false, err := some e, sent := [] }
            | .ok data =>
              let req : SendRequest :=
                { endpoint := endpoint, accessKeyId := akId, accessKeySecret := akSecret,
                  queueName := queueName, MessageBody := data, Priority := 8 }
              { panicked := false, err := send req, sent := [req] }
          | _ => { panicked := true, err := none, sent := [] }
  | _ => { panicked := true, err := none, sent := [] }

/-- The send parameter `key` for a port: the value in the port's metadata when
the key is present, the configured default otherwise. -/
def resolved (port : CtxValuePort) (key dflt : String) : String :=
  (mapGet port.Metadata key).getD dflt

end mns

/-! ## Concrete runtimes used to evaluate the model -/

/-- Collaborators that never fail, over a factory table with the given driver
names; a component is identified by the driver that built it and a worker by
its driver. -/
def plainEnv (drivers : List String) : Collaborators String String :=
  { components := drivers.map (fun d => (d, fun _ => Except.ok (d ++ "-component")))
    workerNew := fun driver _ _ => .ok driver
    newMailbox := fun _ _ _ => none
    newRegistry := none
    newPostman := .ok 1
    newCache := fun _ => 2 }

/-- A runtime with configuration `conf` in which nothing is assembled yet. -/
def freshSpirit (conf : Configuration) : Spirit String String :=
  { postman := 1, reg := [], cache := 2, workers := [], actors := [], conf := conf,
    calls := [] }

/-- A configuration object with the given sub-objects and no string values. -/
def objectConf (fields : List (String × Configuration)) : Configuration :=
  .mk (fun path => mapGet fields path) (mapKeys fields) (fun _ => none)

/-- The configuration `components { echo { a {} }, mns { a {} } }`: the actor
name `a` is configured under two drivers. -/
def sharedNameConf : Configuration :=
  objectConf [("components",
    objectConf [("echo", objectConf [("a", Configuration.NewConfig)]),
                ("mns", objectConf [("a", Configuration.NewConfig)])])]

/-- The configuration `components { nodriver { "" {} } }`: an empty actor name
under a driver. -/
def emptyNameConf : Configuration :=
  objectConf [("components",
    objectConf [("nodriver", objectConf [("", Configuration.NewConfig)])])]

/-- A runtime with the two recorded actors `a` and `b`. -/
def twoActorSpirit : Spirit String String :=
  { postman := 1, reg := ["spirit://actors/echo/a", "spirit://actors/echo/b"], cache := 2,
    workers := [],
    actors := [("a", { worker := "fbp", component := "echo-component" }),
               ("b", { worker := "fbp", component := "echo-component" })],
    conf := Configuration.NewConfig, calls := [("echo", "a"), ("echo", "b")] }

/-- Results of `Start` in which the actor `b` fails and every other one succeeds. -/
def startFailsAtB (name : String) (_act : Actor String String) : Option Error :=
  if name = "b" then some (.external "cannot start b") else none

/-- A heap with one session, at address 0, sent from `src` to `dst`. -/
def demoHeap : Heap Nat :=
  mail.WithFromTo { ctx := 0 } "src" "dst" (mail.NewSession [] Heap.empty).2

/-- A payload protocol over numbers: the body `n :: _` unmarshals to the payload
`n`, the empty body does not; the payload 0 has no current port and every other
one is at `spirit://actors/echo/a`; serialising never fails. -/
def demoProtocol : mns.Protocol Nat :=
  { Unmarshal := fun body =>
      match body with
      | [] => .error (.external "empty body")
      | n :: _ => .ok n
    CurrentPort := fun n =>
      if n = 0 then .error (.external "no current port")
      else .ok { Url := "spirit://actors/echo/a", Metadata := [] }
    ToBytes := fun n => .ok [n] }

/-- A URL library that knows one URL, whose `queue` parameter is `q1`. -/
def demoUrlLib : mns.UrlLib String :=
  { Parse := fun s => if s = "mns://send?queue=q1" then .ok s else .error (.external "parse")
    QueryGet := fun _ key => if key = "queue" then "q1" else "" }

/-- A queue component with its three defaults configured. -/
def demoComponent : mns.MNSComponent :=
  { endpoint := "http://default", accessKeyId := "id", accessKeySecret := "secret" }

/-- The port of the session of `sendHeap`: its metadata overrides the endpoint. -/
def demoPort : CtxValuePort :=
  { To := "mns://send?queue=q1", Metadata := [("endpoint", "http://override")] }

/-- A heap whose session at address 0 carries `demoPort` and the payload 7. -/
def sendHeap : Heap Nat :=
  mail.WithPayload { ctx := 0 } (.payload 7)
    (mail.WithValue { ctx := 0 } .CtxKeyPort (.port demoPort) (mail.NewSession [] Heap.empty).2)

/-! ## Properties -/

theorem mapGet_mapSet_same {V : Type} (m : List (String × V)) (k : String) (v : V) :
    mapGet (mapSet m k v) k = some v := by
  induction m with
  | nil => simp [mapSet, mapGet]
  | cons e rest ih =>
    obtain ⟨k1, v1⟩ := e
    by_cases h : k1 = k
    · simp [mapSet, mapGet, h]
    · simp [mapSet, mapGet, h, ih]

theorem mapGet_mapSet_other {V : Type} (m : List (String × V)) (k k2 : String) (v : V)
    (h2 : k2 ≠ k) : mapGet (mapSet m k v) k2 = mapGet m k2 := by
  induction m with
  | nil => simp [mapSet, mapGet, Ne.symm h2]
  | cons e rest ih =>
    obtain ⟨k1, v1⟩ := e
    by_cases h : k1 = k
    · subst h
      simp [mapSet, mapGet, Ne.symm h2]
    · by_cases h3 : k1 = k2
      · subst h3
        simp [mapSet, mapGet, h]
      · simp [mapSet, mapGet, h, h3, ih]

theorem string_length_eq_zero (s : String) : s.length = 0 ↔ s = "" := by
  constructor
  · intro h
    apply String.ext
    exact List.length_eq_zero.mp h
  · intro h
    subst h
    rfl

/-- C1. `RegisterComponent(name, fn)` panics exactly when the name is empty, the
factory is nil or the name is already bound; a panic leaves the table and the
list of names as they were; otherwise the table binds the name to the factory,
every binding of another name is as before (so every earlier binding is kept)
and the name is appended once at the end of the list of names. -/
theorem registerComponent_contract {F : Type} (t : component.Table F) (name : String)
    (fn : Option F) :
    (((component.RegisterComponent t name fn).panicked ≠ none) ↔
        (name = "" ∨ fn = none ∨ (mapGet t.components name).isSome)) ∧
    ((component.RegisterComponent t name fn).panicked ≠ none →
        (component.RegisterComponent t name fn).state = t) ∧
    ((component.RegisterComponent t name fn).panicked = none →
        mapGet (component.RegisterComponent t name fn).state.components name = fn ∧
        (∀ k f, mapGet t.components k = some f →
          mapGet (component.RegisterComponent t name fn).state.components k = some f) ∧
        (∀ k, k ≠ name →
          mapGet (component.RegisterComponent t name fn).state.components k
            = mapGet t.components k) ∧
        (component.RegisterComponent t name fn).state.componentNames
            = t.componentNames ++ [name]) := by
  unfold component.RegisterComponent
  by_cases hn : name.length = 0
  · have hn2 : name = "" := (string_length_eq_zero name).1 hn
    simp [hn, hn2]
  · have hn2 : name ≠ "" := fun h => hn ((string_length_eq_zero name).2 h)
    cases fn with
    | none => simp [hn, hn2]
    | some f =>
      cases hg : mapGet t.components name with
      | some g => simp [hn, hn2]
      | none =>
        simp only [hn, hn2, if_false, ne_eq, not_true_eq_false, false_or,
          Option.isSome_none, false_iff, not_false_eq_true, true_and, reduceCtorEq,
          Bool.false_eq_true, or_self, false_implies, forall_true_left]
        refine ⟨mapGet_mapSet_same _ _ _, ?_, ?_, trivial⟩
        · intro k f2 hk
          have hkn : k ≠ name := by
            intro h
            subst h
            rw [hg] at hk
            cases hk
          rw [mapGet_mapSet_other _ _ _ _ hkn]
          exact hk
        · intro k hk
          exact mapGet_mapSet_other _ _ _ _ hk

theorem registerComponent_contract_witness :
    (component.RegisterComponent (F := Nat) { components := [], componentNames := [] }
        "mns" (some 7)).state.componentNames = ["mns"] :=
  ((registerComponent_contract (F := Nat) { components := [], componentNames := [] }
      "mns" (some 7)).2.2 rfl).2.2.2

/-! ### Start and Stop -/

/-- C2. Whatever each actor's `Stop` returns, `Spirit.Stop` calls `Stop` on the
recorded actors one after the other, each entry of the actor map exactly once
(the calls made are the entries of the map, in iteration order, and nothing
else); in particular the entries after one whose `Stop` returned an error are
stopped as well.  `Spirit.Stop` returns nil. -/
theorem stop_stops_every_actor {C W : Type} (actStop : String → Actor C W → Option Error)
    (p : Spirit C W) :
    (Spirit.Stop actStop p).1 = p.actors.map (fun e => Spirit.Event.actorStop e.1 e.2) ∧
    (∀ pre n a post err, p.actors = pre ++ (n, a) :: post → actStop n a = some err →
      (Spirit.Stop actStop p).1
        = pre.map (fun e => Spirit.Event.actorStop e.1 e.2)
          ++ Spirit.Event.actorStop n a
            :: post.map (fun e => Spirit.Event.actorStop e.1 e.2)) ∧
    (Spirit.Stop actStop p).1.length = p.actors.length ∧
    (Spirit.Stop actStop p).2 = none := by
  have loop : ∀ l : List (String × Actor C W),
      Spirit.stopActors actStop l = l.map (fun e => Spirit.Event.actorStop e.1 e.2) := by
    intro l
    induction l with
    | nil => rfl
    | cons e rest ih =>
      obtain ⟨n, a⟩ := e
      simp only [Spirit.stopActors, List.map_cons, ih]
  have trace : (Spirit.Stop actStop p).1
      = p.actors.map (fun e => Spirit.Event.actorStop e.1 e.2) := by
    unfold Spirit.Stop
    exact loop p.actors
  refine ⟨trace, ?_, ?_, rfl⟩
  · intro pre n a post err hl _
    rw [trace, hl]
    simp
  · rw [trace]
    simp

theorem startActors_all_ok {C W : Type} (actStart : String → Actor C W → Option Error)
    (l : List (String × Actor C W)) (h : ∀ e ∈ l, actStart e.1 e.2 = none) :
    Spirit.startActors actStart l
      = (l.map (fun e => Spirit.Event.actorStart e.1 e.2), none) := by
  induction l with
  | nil => rfl
  | cons e rest ih =>
    obtain ⟨n, a⟩ := e
    have h1 : actStart n a = none := h (n, a) (List.mem_cons_self _ _)
    have h2 := ih (fun e he => h e (List.mem_cons_of_mem _ he))
    simp [Spirit.startActors, h1, h2]

theorem startActors_first_error {C W : Type} (actStart : String → Actor C W → Option Error)
    (pre post : List (String × Actor C W)) (n : String) (a : Actor C W) (err : Error)
    (hpre : ∀ e ∈ pre, actStart e.1 e.2 = none) (herr : actStart n a = some err) :
    Spirit.startActors actStart (pre ++ (n, a) :: post)
      = ((pre ++ [(n, a)]).map (fun e => Spirit.Event.actorStart e.1 e.2), some err) := by
  induction pre with
  | nil => simp [Spirit.startActors, herr]
  | cons e rest ih =>
    obtain ⟨n1, a1⟩ := e
    have h1 : actStart n1 a1 = none := hpre (n1, a1) (List.mem_cons_self _ _)
    have h2 := ih (fun e he => hpre e (List.mem_cons_of_mem _ he))
    simp [Spirit.startActors, h1, h2]

/-- Split a list at its first entry whose `Start` fails. -/
theorem exists_first_error {C W : Type} (actStart : String → Actor C W → Option Error)
    (l : List (String × Actor C W)) (h : ∃ e ∈ l, actStart e.1 e.2 ≠ none) :
    ∃ pre n a post err, l = pre ++ (n, a) :: post ∧
      (∀ e ∈ pre, actStart e.1 e.2 = none) ∧ actStart n a = some err := by
  induction l with
  | nil =>
    obtain ⟨e, he, _⟩ := h
    cases he
  | cons x rest ih =>
    obtain ⟨n, a⟩ := x
    cases hx : actStart n a with
    | some err => exact ⟨[], n, a, rest, err, rfl, by simp, hx⟩
    | none =>
      have h2 : ∃ e ∈ rest, actStart e.1 e.2 ≠ none := by
        obtain ⟨e, he, hne⟩ := h
        rcases List.mem_cons.1 he with h3 | h3
        · subst h3
          exact absurd hx hne
        · exact ⟨e, h3, hne⟩
      obtain ⟨pre, n2, a2, post, err, hl, hpre, herr⟩ := ih h2
      refine ⟨(n, a) :: pre, n2, a2, post, err, by simp [hl], ?_, herr⟩
      intro e he
      rcases List.mem_cons.1 he with h3 | h3
      · subst h3
        exact hx
      · exact hpre e h3

/-- C3. `Spirit.Start` starts the actors and then the postman.  When every
recorded actor's `Start` returns nil, the calls made are one `Start` per entry
of the actor map followed by the postman's `Start`, and the postman's result is
returned.  When the first actor whose `Start` fails is reached, the calls made
are the `Start` of the entries up to and including it, and its error is
returned.  Hence, when some actor's `Start` would fail, the result is the error
of a recorded actor and the postman's `Start` is not among the calls. -/
theorem start_actors_then_postman {C W : Type}
    (actStart : String → Actor C W → Option Error) (postmanStart : Nat → Option Error)
    (p : Spirit C W) :
    ((∀ e ∈ p.actors, actStart e.1 e.2 = none) →
      Spirit.Start actStart postmanStart p
        = (p.actors.map (fun e => Spirit.Event.actorStart e.1 e.2)
            ++ [Spirit.Event.postmanStart p.postman], postmanStart p.postman)) ∧
    (∀ pre n a post err, p.actors = pre ++ (n, a) :: post →
      (∀ e ∈ pre, actStart e.1 e.2 = none) → actStart n a = some err →
      Spirit.Start actStart postmanStart p
        = ((pre ++ [(n, a)]).map (fun e => Spirit.Event.actorStart e.1 e.2), some err)) ∧
    ((∃ e ∈ p.actors, actStart e.1 e.2 ≠ none) →
      (∃ e ∈ p.actors, ∃ err, actStart e.1 e.2 = some err ∧
        (Spirit.Start actStart postmanStart p).2 = some err) ∧
      ∀ pm, Spirit.Event.postmanStart pm ∉ (Spirit.Start actStart postmanStart p).1) := by
  have part2 : ∀ pre n a post err, p.actors = pre ++ (n, a) :: post →
      (∀ e ∈ pre, actStart e.1 e.2 = none) → actStart n a = some err →
      Spirit.Start actStart postmanStart p
        = ((pre ++ [(n, a)]).map (fun e => Spirit.Event.actorStart e.1 e.2), some err) := by
    intro pre n a post err hl hpre herr
    unfold Spirit.Start
    rw [hl, startActors_first_error actStart pre post n a err hpre herr]
  refine ⟨?_, part2, ?_⟩
  · intro h
    unfold Spirit.Start
    rw [startActors_all_ok actStart p.actors h]
    cases hp : postmanStart p.postman <;> simp
  · intro h
    obtain ⟨pre, n, a, post, err, hl, hpre, herr⟩ := exists_first_error actStart p.actors h
    have hs := part2 pre n a post err hl hpre herr
    refine ⟨⟨(n, a), ?_, err, herr, ?_⟩, ?_⟩
    · rw [hl]
      simp
    · rw [hs]
    · intro pm hmem
      rw [hs] at hmem
      simp at hmem

theorem start_actors_then_postman_witness :
    Spirit.Start startFailsAtB (fun _ => none) twoActorSpirit
      = ([Spirit.Event.actorStart "a" { worker := "fbp", component := "echo-component" },
          Spirit.Event.actorStart "b" { worker := "fbp", component := "echo-component" }],
         some (.external "cannot start b")) :=
  (start_actors_then_postman startFailsAtB (fun _ => none) twoActorSpirit).2.1
    [("a", { worker := "fbp", component := "echo-component" })] "b"
    { worker := "fbp", component := "echo-component" } [] (.external "cannot start b")
    rfl (by decide) (by decide)

/-! ### Actor addresses -/

theorem slash_split {α : Type} (c : α) (d1 d2 n1 n2 : List α)
    (h1 : c ∉ d1) (h2 : c ∉ d2) (h : d1 ++ c :: n1 = d2 ++ c :: n2) :
    d1 = d2 ∧ n1 = n2 := by
  induction d1 generalizing d2 with
  | nil =>
    cases d2 with
    | nil => simpa using h
    | cons y ys =>
      simp only [List.nil_append, List.cons_append, List.cons.injEq] at h
      exact absurd (List.mem_cons.2 (Or.inl h.1)) h2
  | cons x xs ih =>
    cases d2 with
    | nil =>
      simp only [List.nil_append, List.cons_append, List.cons.injEq] at h
      exact absurd (List.mem_cons.2 (Or.inl h.1.symm)) h1
    | cons y ys =>
      simp only [List.cons_append, List.cons.injEq] at h
      have hx : c ∉ xs := fun hm => h1 (List.mem_cons_of_mem _ hm)
      have hy : c ∉ ys := fun hm => h2 (List.mem_cons_of_mem _ hm)
      obtain ⟨e1, e2⟩ := ih ys hx hy h.2
      exact ⟨by rw [h.1, e1], e2⟩

theorem actorUrl_data (driver name : String) :
    (Spirit.actorUrl driver name).data
      = "spirit://actors/".data ++ (driver.data ++ '/' :: name.data) := by
  simp [Spirit.actorUrl, String.data_append]

theorem actorUrl_split (d1 n1 d2 n2 : String)
    (h : Spirit.actorUrl d1 n1 = Spirit.actorUrl d2 n2) :
    d1.data ++ '/' :: n1.data = d2.data ++ '/' :: n2.data := by
  have h2 := congrArg String.data h
  rw [actorUrl_data, actorUrl_data] at h2
  exact List.append_cancel_left h2

theorem newWorker_ok {C W : Type} (env : Collaborators C W) (p p1 : Spirit C W)
    (name url : String) (comp : C) (wk : W)
    (h : Spirit.newWorker env p name [WorkerUrl url, WorkerHandler comp] = (p1, .ok wk)) :
    name ≠ "" ∧ p1 = { p with reg := p.reg ++ [url] } ∧ url ∉ p.reg := by
  unfold Spirit.newWorker at h
  by_cases hn : name.length = 0
  · simp [hn] at h
  · have hne : name ≠ "" := fun hh => hn ((string_length_eq_zero name).2 hh)
    simp only [hn, if_false] at h
    split at h
    · simp at h
    · simp only [List.foldl, WorkerUrl, WorkerHandler] at h
      split at h
      · simp at h
      · split at h
        · simp at h
        · unfold registryRegister at h
          by_cases hmem : url ∈ p.reg
          · simp [hmem] at h
          · simp only [hmem, if_false] at h
            simp only [Prod.mk.injEq, Except.ok.injEq] at h
            exact ⟨hne, h.1.symm, hmem⟩

theorem newWorker_error {C W : Type} (env : Collaborators C W) (p p1 : Spirit C W)
    (name : String) (opts : List (WorkerOption C)) (e : Error)
    (h : Spirit.newWorker env p name opts = (p1, .error e)) : p1 = p := by
  unfold Spirit.newWorker at h
  by_cases hn : name.length = 0
  · simp [hn] at h
    exact h.1.symm
  · simp only [hn, if_false] at h
    split at h
    · simp at h
      exact h.1.symm
    · split at h
      · simp at h
        exact h.1.symm
      · split at h
        · simp at h
          exact h.1.symm
        · split at h
          · simp at h
            exact h.1.symm
          · simp at h

/-- The options `NewActor` hands to the factory of a configured pair. -/
theorem NewActor_single {C W : Type} (env : Collaborators C W) (p : Spirit C W)
    (name driver : String) (copts : List component.OptionFn) :
    Spirit.NewActor env p name [ActorComponent driver copts] =
      if driver.length = 0 then
        ({ p with calls := p.calls ++ [(driver, name)] }, .error .componentDriverNameEmpty)
      else
        match component.NewComponent env.components driver
            ([component.Postman p.postman, component.Cache p.cache,
              component.Config (some
                (match p.conf.GetConfig ("components." ++ driver ++ "." ++ name) with
                  | none => Configuration.NewConfig
                  | some c => c))] ++ copts) with
        | .error e => ({ p with calls := p.calls ++ [(driver, name)] }, .error e)
        | .ok comp =>
          match Spirit.newWorker env { p with calls := p.calls ++ [(driver, name)] } name
              [WorkerUrl (Spirit.actorUrl driver name), WorkerHandler comp] with
          | (p1, .error e) => (p1, .error e)
          | (p1, .ok wk) =>
            ({ p1 with actors := mapSet p1.actors name { worker := wk, component := comp } },
              .ok { worker := wk, component := comp }) := by
  by_cases hd : driver.length = 0
  · simp [Spirit.NewActor, ActorComponent, hd]
  · simp [Spirit.NewActor, ActorComponent, hd]

theorem NewActor_ok {C W : Type} (env : Collaborators C W) (p p1 : Spirit C W)
    (name driver : String) (copts : List component.OptionFn) (act : Actor C W)
    (h : Spirit.NewActor env p name [ActorComponent driver copts] = (p1, .ok act)) :
    driver ≠ "" ∧ name ≠ "" ∧ (mapGet env.components driver).isSome ∧
    Spirit.actorUrl driver name ∉ p.reg ∧
    p1 = { p with calls := p.calls ++ [(driver, name)],
                  reg := p.reg ++ [Spirit.actorUrl driver name],
                  actors := mapSet p.actors name act } := by
  rw [NewActor_single] at h
  by_cases hd : driver.length = 0
  · simp [hd] at h
  · have hdn : driver ≠ "" := fun hh => hd ((string_length_eq_zero driver).2 hh)
    simp only [hd, if_false] at h
    split at h
    · simp at h
    · rename_i comp hcomp
      have hreg : (mapGet env.components driver).isSome := by
        unfold component.NewComponent at hcomp
        cases hg : mapGet env.components driver with
        | none => simp [hg] at hcomp
        | some f => rfl
      split at h
      · simp at h
      · rename_i p2 wk hw
        obtain ⟨hn, hp2, hmem⟩ := newWorker_ok env _ p2 name _ comp wk hw
        simp only [Prod.mk.injEq, Except.ok.injEq] at h
        refine ⟨hdn, hn, hreg, hmem, ?_⟩
        rw [← h.1, ← h.2, hp2]

theorem NewActor_error_state {C W : Type} (env : Collaborators C W) (p p1 : Spirit C W)
    (name driver : String) (copts : List component.OptionFn) (e : Error)
    (h : Spirit.NewActor env p name [ActorComponent driver copts] = (p1, .error e)) :
    p1 = { p with calls := p.calls ++ [(driver, name)] } := by
  rw [NewActor_single] at h
  by_cases hd : driver.length = 0
  · simp [hd] at h
    exact h.1.symm
  · simp only [hd, if_false] at h
    split at h
    · simp at h
      exact h.1.symm
    · split at h
      · rename_i p2 e2 hw
        have hp2 := newWorker_error env _ p2 name _ e2 hw
        simp only [Prod.mk.injEq] at h
        rw [← h.1, hp2]
      · simp at h

/-- The three configuration errors make `NewActor` fail. -/
theorem NewActor_badPair {C W : Type} (env : Collaborators C W) (p : Spirit C W)
    (name driver : String) (copts : List component.OptionFn)
    (hbad : badPair env driver name) :
    ∃ e, (Spirit.NewActor env p name [ActorComponent driver copts]).2 = .error e := by
  cases hres : Spirit.NewActor env p name [ActorComponent driver copts] with
  | mk p1 r =>
    cases r with
    | error e => exact ⟨e, rfl⟩
    | ok act =>
      obtain ⟨hd, hn, hreg, _, _⟩ := NewActor_ok env p p1 name driver copts act hres
      rcases hbad with h | h | h
      · exact absurd h hd
      · rw [Option.isNone_iff_eq_none] at h
        rw [h] at hreg
        cases hreg
      · exact absurd h hn

/-- C4 (amended). A configured `(driver, name)` pair that is assembled gets the
mailbox address `spirit://actors/<driver>/<name>`: it is the address `NewActor`
registers.  Two pairs whose driver names contain no `/`, or whose actor names
contain no `/`, and that have the same address are the same pair. -/
theorem actor_address_unique_without_slash {C W : Type} (env : Collaborators C W) :
    (∀ (p p1 : Spirit C W) (driver name : String) (copts : List component.OptionFn)
        (act : Actor C W),
      Spirit.NewActor env p name [ActorComponent driver copts] = (p1, .ok act) →
        p1.reg = p.reg ++ ["spirit://actors/" ++ driver ++ "/" ++ name]) ∧
    (∀ d1 n1 d2 n2 : String,
      (('/' ∉ d1.toList ∧ '/' ∉ d2.toList) ∨ ('/' ∉ n1.toList ∧ '/' ∉ n2.toList)) →
      Spirit.actorUrl d1 n1 = Spirit.actorUrl d2 n2 → d1 = d2 ∧ n1 = n2) := by
  constructor
  · intro p p1 driver name copts act h
    obtain ⟨_, _, _, _, hp1⟩ := NewActor_ok env p p1 name driver copts act h
    rw [hp1]
    rfl
  · intro d1 n1 d2 n2 hs h
    have hl := actorUrl_split d1 n1 d2 n2 h
    rcases hs with ⟨h1, h2⟩ | ⟨h1, h2⟩
    · obtain ⟨e1, e2⟩ := slash_split '/' d1.data d2.data n1.data n2.data h1 h2 hl
      exact ⟨String.ext e1, String.ext e2⟩
    · have hr := congrArg List.reverse hl
      simp only [List.reverse_append, List.reverse_cons, List.append_assoc,
        List.singleton_append] at hr
      have h1r : '/' ∉ n1.data.reverse := fun hm => h1 (List.mem_reverse.1 hm)
      have h2r : '/' ∉ n2.data.reverse := fun hm => h2 (List.mem_reverse.1 hm)
      obtain ⟨e1, e2⟩ := slash_split '/' _ _ _ _ h1r h2r hr
      exact ⟨String.ext (List.reverse_injective e2), String.ext (List.reverse_injective e1)⟩

theorem actor_address_unique_without_slash_witness :
    (Spirit.NewActor (plainEnv ["echo"]) (freshSpirit Configuration.NewConfig) "a"
        [ActorComponent "echo" []]).1.reg = ["spirit://actors/" ++ "echo" ++ "/" ++ "a"] ∧
    ("echo" = "echo" ∧ "a" = "a") :=
  ⟨(actor_address_unique_without_slash (plainEnv ["echo"])).1
      (freshSpirit Configuration.NewConfig) _ "echo" "a" []
      { worker := "fbp", component := "echo-component" } rfl,
    (actor_address_unique_without_slash (plainEnv ["echo"])).2 "echo" "a" "echo" "a"
      (Or.inl ⟨by decide, by decide⟩) rfl⟩

/-- C4 (as stated) fails: the pairs `("a/b", "c")` and `("a", "b/c")` differ and
both get the address `spirit://actors/a/b/c`, which `NewActor` registers for
either of them. -/
theorem actor_address_collision :
    (("a/b", "c") : String × String) ≠ ("a", "b/c") ∧
    Spirit.actorUrl "a/b" "c" = Spirit.actorUrl "a" "b/c" ∧
    (Spirit.NewActor (plainEnv ["a/b", "a"]) (freshSpirit Configuration.NewConfig) "c"
        [ActorComponent "a/b" []]).1.reg = ["spirit://actors/a/b/c"] ∧
    (Spirit.NewActor (plainEnv ["a/b", "a"]) (freshSpirit Configuration.NewConfig) "b/c"
        [ActorComponent "a" []]).1.reg = ["spirit://actors/a/b/c"] := by
  refine ⟨by decide, by decide, by decide, by decide⟩

/-- C5 at the failing input: with `components { echo { a {} }, mns { a {} } }`
and both drivers registered, assembly succeeds, `NewActor` ran for the two
configured pairs and both mailboxes are registered, yet one actor is recorded:
the one under the name `a` built by driver `mns`; the actor of the pair
`(echo, a)` is not in the actor map. -/
theorem generateActors_shared_name :
    (configuredEntries sharedNameConf).map Entry.pair = [("echo", "a"), ("mns", "a")] ∧
    (Spirit.generateActors (plainEnv ["echo", "mns"]) (freshSpirit sharedNameConf)).2 = none ∧
    (Spirit.generateActors (plainEnv ["echo", "mns"]) (freshSpirit sharedNameConf)).1.calls
      = [("echo", "a"), ("mns", "a")] ∧
    (Spirit.generateActors (plainEnv ["echo", "mns"]) (freshSpirit sharedNameConf)).1.reg
      = ["spirit://actors/echo/a", "spirit://actors/mns/a"] ∧
    (Spirit.generateActors (plainEnv ["echo", "mns"]) (freshSpirit sharedNameConf)).1.actors
      = [("a", { worker := "fbp", component := "mns-component" })] := by
  refine ⟨by decide, by decide, by decide, by decide, by decide⟩

/-! ### Assembly -/

theorem generateActorsNames_eq_assemble {C W : Type} (env : Collaborators C W)
    (driver : String) (driverConf : Configuration) (names : List String) (p : Spirit C W) :
    Spirit.generateActorsNames env driver driverConf names p
      = assemble env
          (names.map (fun actName => (driver, actName, driverConf.GetConfig actName))) p := by
  induction names generalizing p with
  | nil => rfl
  | cons n rest ih =>
    simp only [Spirit.generateActorsNames, List.map_cons, assemble]
    split <;> simp_all

theorem assemble_append {C W : Type} (env : Collaborators C W) (l1 l2 : List Entry)
    (p : Spirit C W) :
    assemble env (l1 ++ l2) p =
      match assemble env l1 p with
      | (p1, some e) => (p1, some e)
      | (p1, none) => assemble env l2 p1 := by
  induction l1 generalizing p with
  | nil => rfl
  | cons x rest ih =>
    simp only [List.cons_append, assemble]
    split
    · rfl
    · exact ih _

theorem generateActorsDrivers_eq_assemble {C W : Type} (env : Collaborators C W)
    (componentsConf : Configuration) (drivers : List String) (p : Spirit C W) :
    Spirit.generateActorsDrivers env componentsConf drivers p
      = assemble env (driverEntries componentsConf drivers) p := by
  induction drivers generalizing p with
  | nil => rfl
  | cons d rest ih =>
    simp only [Spirit.generateActorsDrivers, driverEntries]
    cases hc : componentsConf.GetConfig d with
    | none => simpa using ih p
    | some dc =>
      simp only
      by_cases hk : dc.Keys.length = 0
      · have hk2 : dc.Keys = [] := List.length_eq_zero.mp hk
        simp only [hk, if_true, hk2, List.map_nil, List.nil_append]
        exact ih p
      · simp only [hk, if_false]
        rw [assemble_append, generateActorsNames_eq_assemble]
        split
        · rename_i p1 e h1
          simp [h1]
        · rename_i p1 h1
          simp [h1, ih]

/-- The nested loops of `generateActors` run `NewActor` over the configured
pairs, in order, up to the first error. -/
theorem generateActors_eq_assemble {C W : Type} (env : Collaborators C W) (p : Spirit C W) :
    Spirit.generateActors env p = assemble env (configuredEntries p.conf) p := by
  unfold Spirit.generateActors configuredEntries
  cases hc : p.conf.GetConfig "components" with
  | none => rfl
  | some cc =>
    simp only
    by_cases hk : cc.Keys.length = 0
    · have hk2 : cc.Keys = [] := List.length_eq_zero.mp hk
      simp [hk2, driverEntries, assemble]
    · simp only [hk, if_false]
      exact generateActorsDrivers_eq_assemble env cc cc.Keys p

/-- An assembly that ends without error has run `NewActor` for every entry,
and no entry had a configuration error. -/
theorem assemble_ok {C W : Type} (env : Collaborators C W) (l : List Entry)
    (p pf : Spirit C W) (h : assemble env l p = (pf, none)) :
    (∀ x ∈ l, ¬ badPair env x.1 x.2.1) ∧ pf.calls = p.calls ++ l.map Entry.pair := by
  induction l generalizing p with
  | nil =>
    simp only [assemble, Prod.mk.injEq, and_true] at h
    subst h
    simp
  | cons x rest ih =>
    simp only [assemble] at h
    split at h
    · simp at h
    · rename_i p1 act hx
      obtain ⟨hd, hn, hreg, _, hp1⟩ := NewActor_ok env p p1 x.2.1 x.1 _ act hx
      obtain ⟨hbad, hcalls⟩ := ih p1 h
      constructor
      · intro y hy
        rcases List.mem_cons.1 hy with h1 | h1
        · subst h1
          intro hb
          rcases hb with hb | hb | hb
          · exact hd hb
          · rw [Option.isNone_iff_eq_none] at hb
            rw [hb] at hreg
            cases hreg
          · exact hn hb
        · exact hbad y h1
      · rw [hcalls, hp1]
        simp [Entry.pair]

/-- An assembly that ends with an error stopped at the first entry whose
`NewActor` failed: the entries before it were assembled, its error is the
result, the actor map is as it was before that entry, and `NewActor` ran for no
later entry. -/
theorem assemble_error {C W : Type} (env : Collaborators C W) (l : List Entry)
    (p pf : Spirit C W) (e : Error) (h : assemble env l p = (pf, some e)) :
    ∃ pre x post p1, l = pre ++ x :: post ∧ assemble env pre p = (p1, none) ∧
      Spirit.NewActor env p1 x.2.1 [ActorComponent x.1 [component.Config x.2.2]]
        = (pf, .error e) ∧
      pf.calls = p.calls ++ (pre ++ [x]).map Entry.pair ∧ pf.actors = p1.actors := by
  induction l generalizing p with
  | nil => simp [assemble] at h
  | cons x rest ih =>
    simp only [assemble] at h
    split at h
    · rename_i p1 e1 hx
      simp only [Prod.mk.injEq, Option.some.injEq] at h
      obtain ⟨h1, h2⟩ := h
      subst h1
      subst h2
      have hst := NewActor_error_state env p p1 x.2.1 x.1 _ e1 hx
      refine ⟨[], x, rest, p, rfl, rfl, hx, ?_, ?_⟩
      · rw [hst]
        simp [Entry.pair]
      · rw [hst]
    · rename_i p1 act hx
      obtain ⟨pre, y, post, p2, hl, hpre, hy, hcalls, hact⟩ := ih p1 h
      obtain ⟨_, _, _, _, hp1⟩ := NewActor_ok env p p1 x.2.1 x.1 _ act hx
      refine ⟨x :: pre, y, post, p2, by simp [hl], ?_, hy, ?_, hact⟩
      · simp only [assemble, hx]
        exact hpre
      · rw [hcalls, hp1]
        simp [Entry.pair]

/-- A configuration error among the entries makes the assembly fail. -/
theorem assemble_bad {C W : Type} (env : Collaborators C W) (l : List Entry)
    (p : Spirit C W) (h : ∃ x ∈ l, badPair env x.1 x.2.1) :
    ∃ e, (assemble env l p).2 = some e := by
  cases hres : assemble env l p with
  | mk pf r =>
    cases r with
    | some e => exact ⟨e, rfl⟩
    | none =>
      obtain ⟨x, hx, hb⟩ := h
      exact absurd hb ((assemble_ok env l p pf hres).1 x hx)

theorem NewActor_error_cases {C W : Type} (env : Collaborators C W) (p : Spirit C W)
    (name driver : String) (copts : List component.OptionFn) :
    (driver = "" →
      (Spirit.NewActor env p name [ActorComponent driver copts]).2
        = .error .componentDriverNameEmpty) ∧
    (driver ≠ "" → mapGet env.components driver = none →
      (Spirit.NewActor env p name [ActorComponent driver copts]).2
        = .error (.componentDriverNotExist driver)) ∧
    (driver ≠ "" → ∀ e,
      component.NewComponent env.components driver (factoryOptions p driver name copts)
        = .error e →
      (Spirit.NewActor env p name [ActorComponent driver copts]).2 = .error e) ∧
    (driver ≠ "" → name = "" → ∀ comp,
      component.NewComponent env.components driver (factoryOptions p driver name copts)
        = .ok comp →
      (Spirit.NewActor env p name [ActorComponent driver copts]).2
        = .error .ErrNameIsEmpty) := by
  rw [NewActor_single]
  refine ⟨?_, ?_, ?_, ?_⟩
  · intro hd
    subst hd
    simp
  · intro hd hg
    have hl : ¬ driver.length = 0 := fun hh => hd ((string_length_eq_zero driver).1 hh)
    simp [hl, component.NewComponent, hg]
  · intro hd e he
    have hl : ¬ driver.length = 0 := fun hh => hd ((string_length_eq_zero driver).1 hh)
    unfold factoryOptions at he
    simp only [hl, if_false]
    rw [he]
  · intro hd hn comp hc
    have hl : ¬ driver.length = 0 := fun hh => hd ((string_length_eq_zero driver).1 hh)
    unfold factoryOptions at hc
    subst hn
    simp only [hl, if_false]
    rw [hc]
    simp [Spirit.newWorker]

theorem New_eq {C W : Type} (env : Collaborators C W) (opts : List OptionFn) :
    Spirit.New env opts =
      match env.newRegistry with
      | some e => (none, some e)
      | none =>
        match env.newPostman with
        | .error e => (none, some e)
        | .ok man =>
          match Spirit.generateActors env (initialSpirit env opts man) with
          | (_, some e) => (none, some e)
          | (sp1, none) => (some sp1, none) := by
  rfl

/-- C6 (amended). For a pair with an empty driver name, a driver that is not in
the factory table or an empty actor name, `NewActor` returns a non-nil error and
leaves the actor map (and the registry) as they were.  The error is the
driver-name error for an empty driver, the driver-not-exist error for a
non-empty unregistered driver, the factory's own error when the factory fails,
and `ErrNameIsEmpty` for an empty actor name when the driver is non-empty,
registered and its factory returns a component.  On a configuration with such a
pair `generateActors` returns an error: that of the first configured pair whose
`NewActor` fails, which is not later than the first pair with a configuration
error; `NewActor` runs for no pair after it and the actor map holds what the
pairs before it recorded.  `New` then returns no runtime and an error, which is
the error of `generateActors` when the registry and the postman were built. -/
theorem config_errors_abort_assembly {C W : Type} (env : Collaborators C W) :
    (∀ (p : Spirit C W) (driver name : String) (copts : List component.OptionFn),
      badPair env driver name →
      ∃ e, (Spirit.NewActor env p name [ActorComponent driver copts]).2 = .error e ∧
        (Spirit.NewActor env p name [ActorComponent driver copts]).1.actors = p.actors ∧
        (Spirit.NewActor env p name [ActorComponent driver copts]).1.reg = p.reg) ∧
    (∀ (p : Spirit C W) (driver name : String) (copts : List component.OptionFn),
      (driver = "" →
        (Spirit.NewActor env p name [ActorComponent driver copts]).2
          = .error .componentDriverNameEmpty) ∧
      (driver ≠ "" → mapGet env.components driver = none →
        (Spirit.NewActor env p name [ActorComponent driver copts]).2
          = .error (.componentDriverNotExist driver)) ∧
      (driver ≠ "" → ∀ e,
        component.NewComponent env.components driver (factoryOptions p driver name copts)
          = .error e →
        (Spirit.NewActor env p name [ActorComponent driver copts]).2 = .error e) ∧
      (driver ≠ "" → name = "" → ∀ comp,
        component.NewComponent env.components driver (factoryOptions p driver name copts)
          = .ok comp →
        (Spirit.NewActor env p name [ActorComponent driver copts]).2
          = .error .ErrNameIsEmpty)) ∧
    (∀ p : Spirit C W, (∃ x ∈ configuredEntries p.conf, badPair env x.1 x.2.1) →
      ∃ pre x post p1 pf e, configuredEntries p.conf = pre ++ x :: post ∧
        (∀ y ∈ pre, ¬ badPair env y.1 y.2.1) ∧
        assemble env pre p = (p1, none) ∧
        Spirit.NewActor env p1 x.2.1 [ActorComponent x.1 [component.Config x.2.2]]
          = (pf, .error e) ∧
        Spirit.generateActors env p = (pf, some e) ∧
        pf.calls = p.calls ++ (pre ++ [x]).map Entry.pair ∧
        pf.actors = p1.actors) ∧
    (∀ opts : List OptionFn,
      (∃ x ∈ configuredEntries (Spirit.applyOptions opts).config, badPair env x.1 x.2.1) →
      (Spirit.New env opts).1 = none ∧
      ∃ e, (Spirit.New env opts).2 = some e ∧
        (env.newRegistry = none → ∀ man, env.newPostman = .ok man →
          (Spirit.generateActors env (initialSpirit env opts man)).2 = some e)) := by
  refine ⟨?_, ?_, ?_, ?_⟩
  · intro p driver name copts hbad
    obtain ⟨e, he⟩ := NewActor_badPair env p name driver copts hbad
    have hst := NewActor_error_state env p _ name driver copts e (Prod.ext rfl he)
    have ha := congrArg Spirit.actors hst
    have hr := congrArg Spirit.reg hst
    exact ⟨e, he, ha, hr⟩
  · intro p driver name copts
    exact NewActor_error_cases env p name driver copts
  · intro p hbad
    obtain ⟨e, he⟩ := assemble_bad env _ p hbad
    have hres : assemble env (configuredEntries p.conf) p
        = ((assemble env (configuredEntries p.conf) p).1, some e) := Prod.ext rfl he
    obtain ⟨pre, x, post, p1, hl, hpre, hx, hcalls, hact⟩ :=
      assemble_error env _ p _ e hres
    refine ⟨pre, x, post, p1, _, e, hl, (assemble_ok env pre p p1 hpre).1, hpre, hx, ?_,
      hcalls, hact⟩
    rw [generateActors_eq_assemble]
    exact hres
  · intro opts hbad
    have hgen : ∀ man, ∃ e,
        (Spirit.generateActors env (initialSpirit env opts man)).2 = some e := by
      intro man
      rw [generateActors_eq_assemble]
      exact assemble_bad env _ _ hbad
    rw [New_eq]
    cases hr : env.newRegistry with
    | some e => exact ⟨rfl, e, rfl, fun h => by cases h⟩
    | none =>
      cases hp : env.newPostman with
      | error e => exact ⟨rfl, e, rfl, fun _ man h => by cases h⟩
      | ok man =>
        obtain ⟨e, he⟩ := hgen man
        dsimp only
        cases hG : Spirit.generateActors env (initialSpirit env opts man) with
        | mk pf r =>
          rw [hG] at he
          simp only at he
          subst he
          refine ⟨rfl, e, rfl, ?_⟩
          intro _ man2 hman2
          cases hman2
          rw [hG]

theorem config_errors_abort_assembly_witness :
    (Spirit.NewActor (plainEnv ["nodriver"]) (freshSpirit emptyNameConf) ""
        [ActorComponent "nodriver" []]).2 = .error .ErrNameIsEmpty :=
  ((config_errors_abort_assembly (plainEnv ["nodriver"])).2.1
      (freshSpirit emptyNameConf) "nodriver" "" []).2.2.2
    (by decide) rfl "nodriver-component" rfl

/-- C6 (as stated) fails: in `components { nodriver { "" {} } }` the pair
`(nodriver, "")` has an empty actor name; with `nodriver` not in the factory
table `NewActor` for it, and `generateActors`, return the driver-not-exist
error, which is not `ErrNameIsEmpty`. -/
theorem empty_name_error_is_not_ErrNameIsEmpty :
    (configuredEntries emptyNameConf).map Entry.pair = [("nodriver", "")] ∧
    (Spirit.NewActor (plainEnv []) (freshSpirit emptyNameConf) ""
        [ActorComponent "nodriver" [component.Config (some Configuration.NewConfig)]]).2
      = .error (.componentDriverNotExist "nodriver") ∧
    (Spirit.generateActors (plainEnv []) (freshSpirit emptyNameConf)).2
      = some (.componentDriverNotExist "nodriver") ∧
    (Spirit.NewActor (plainEnv []) (freshSpirit emptyNameConf) ""
        [ActorComponent "nodriver" [component.Config (some Configuration.NewConfig)]]).2
      ≠ .error .ErrNameIsEmpty := by
  refine ⟨by decide, rfl, by decide, ?_⟩
  intro h
  cases h

/-! ### Sessions -/

theorem write_cell_same {P : Type} (h : Heap P) (a : Nat) (c : Context P) :
    (h.write a c).cell a = c := by
  simp [Heap.write]

theorem write_cell_other {P : Type} (h : Heap P) (a b : Nat) (c : Context P)
    (hne : b ≠ a) : (h.write a c).cell b = h.cell b := by
  simp [Heap.write, hne]

theorem write_next {P : Type} (h : Heap P) (a : Nat) (c : Context P) :
    (h.write a c).next = h.next := rfl

/-- C7. `From()` and `To()` are total and return a string in every state: the
empty string on a fresh session, the empty string whenever the value under the
private key is not a string (absent, that is nil, included), and after
`WithFromTo(f, t)` they return `f` and `t`, for all strings `f` and `t`. -/
theorem from_to_always_resolvable {P : Type} :
    (∀ h : Heap P,
      mail.From (mail.NewSession [] h).1 (mail.NewSession [] h).2 = "" ∧
      mail.To (mail.NewSession [] h).1 (mail.NewSession [] h).2 = "") ∧
    (∀ (p : mail.defaultSession) (h : Heap P),
      ((∀ s, mail.Value p .ctxKeyFrom h ≠ .str s) → mail.From p h = "") ∧
      ((∀ s, mail.Value p .ctxKeyTo h ≠ .str s) → mail.To p h = "")) ∧
    (∀ (p : mail.defaultSession) (h : Heap P) (f t : String),
      mail.From p (mail.WithFromTo p f t h) = f ∧
      mail.To p (mail.WithFromTo p f t h) = t) := by
  refine ⟨?_, ?_, ?_⟩
  · intro h
    simp [mail.From, mail.To, mail.NewSession, Heap.alloc, Context.NewContext,
      Context.Value, Context.find]
  · intro p h
    constructor
    · intro hv
      unfold mail.From
      unfold mail.Value at hv
      split
      · rename_i s hs
        exact absurd hs (hv s)
      · rfl
    · intro hv
      unfold mail.To
      unfold mail.Value at hv
      split
      · rename_i s hs
        exact absurd hs (hv s)
      · rfl
  · intro p h f t
    simp [mail.From, mail.To, mail.WithFromTo, Heap.write, Context.WithValue,
      Context.Value, Context.find]

theorem from_to_always_resolvable_witness :
    mail.From (P := Nat) { ctx := 0 }
      (mail.WithValue { ctx := 0 } .ctxKeyFrom (.other 5) Heap.empty) = "" :=
  ((from_to_always_resolvable (P := Nat)).2.1 { ctx := 0 }
      (mail.WithValue { ctx := 0 } .ctxKeyFrom (.other 5) Heap.empty)).1
    (fun s hh => by
      simp [mail.Value, mail.WithValue, Heap.write, Heap.empty, Context.WithValue,
        Context.Value, Context.find] at hh)

theorem runCall_cell_other {P : Type} (p : mail.defaultSession) (c : mail.Call P)
    (h : Heap P) (b : Nat) (hne : b ≠ p.ctx) :
    (mail.runCall p c h).cell b = h.cell b := by
  cases c <;>
    simp [mail.runCall, mail.WithValue, mail.WithFromTo, mail.WithPayload, Heap.write, hne]

/-- Mutating calls on one session leave every other context as it was. -/
theorem runCalls_cell_other {P : Type} (p : mail.defaultSession) (cs : List (mail.Call P))
    (h : Heap P) (b : Nat) (hne : b ≠ p.ctx) :
    (mail.runCalls p cs h).cell b = h.cell b := by
  induction cs generalizing h with
  | nil => rfl
  | cons c rest ih =>
    simp only [mail.runCalls]
    rw [ih, runCall_cell_other p c h b hne]

theorem fork_cells {P : Type} (p : mail.defaultSession) (h : Heap P) (hp : p.ctx < h.next) :
    (mail.Fork p h).1.ctx ≠ p.ctx ∧
    (mail.Fork p h).2.cell p.ctx = h.cell p.ctx ∧
    ((mail.Fork p h).2.cell (mail.Fork p h).1.ctx).values = (h.cell p.ctx).values := by
  have hne : p.ctx ≠ h.next := Nat.ne_of_lt hp
  refine ⟨?_, ?_, ?_⟩
  · simp only [mail.Fork, Heap.alloc]
    exact fun hh => hne hh.symm
  · simp [mail.Fork, Heap.alloc, hne]
  · simp [mail.Fork, Heap.alloc, Context.Copy]

/-- C8. Let `f` be the fork of an allocated session `s`.  Right after the fork
every key has the same value in `f` as in `s`, and `s` itself is unchanged; so
`From`, `To` and `Payload` agree.  After any sequence of `WithValue`,
`WithFromTo` and `WithPayload` calls on the fork, `Value`, `From`, `To` and
`Payload` of the parent are what they were at fork time, and after any such
sequence on the parent those of the fork are what they were at fork time. -/
theorem fork_independent {P : Type} (s : mail.defaultSession) (h : Heap P)
    (hs : s.ctx < h.next) (cs : List (mail.Call P)) :
    (∀ k, mail.Value (mail.Fork s h).1 k (mail.Fork s h).2 = mail.Value s k h) ∧
    (∀ k, mail.Value s k (mail.Fork s h).2 = mail.Value s k h) ∧
    mail.From (mail.Fork s h).1 (mail.Fork s h).2 = mail.From s h ∧
    mail.To (mail.Fork s h).1 (mail.Fork s h).2 = mail.To s h ∧
    mail.Payload (mail.Fork s h).1 (mail.Fork s h).2 = mail.Payload s h ∧
    (∀ k, mail.Value s k (mail.runCalls (mail.Fork s h).1 cs (mail.Fork s h).2)
        = mail.Value s k h) ∧
    mail.From s (mail.runCalls (mail.Fork s h).1 cs (mail.Fork s h).2) = mail.From s h ∧
    mail.To s (mail.runCalls (mail.Fork s h).1 cs (mail.Fork s h).2) = mail.To s h ∧
    mail.Payload s (mail.runCalls (mail.Fork s h).1 cs (mail.Fork s h).2)
      = mail.Payload s h ∧
    (∀ k, mail.Value (mail.Fork s h).1 k (mail.runCalls s cs (mail.Fork s h).2)
        = mail.Value s k h) ∧
    mail.From (mail.Fork s h).1 (mail.runCalls s cs (mail.Fork s h).2) = mail.From s h ∧
    mail.To (mail.Fork s h).1 (mail.runCalls s cs (mail.Fork s h).2) = mail.To s h ∧
    mail.Payload (mail.Fork s h).1 (mail.runCalls s cs (mail.Fork s h).2)
      = mail.Payload s h := by
  obtain ⟨hne, hpar, hchild⟩ := fork_cells s h hs
  have hchildV : ∀ k, ((mail.Fork s h).2.cell (mail.Fork s h).1.ctx).Value k
      = (h.cell s.ctx).Value k := by
    intro k
    simp only [Context.Value, hchild]
  have h1 : (mail.runCalls (mail.Fork s h).1 cs (mail.Fork s h).2).cell s.ctx
      = h.cell s.ctx := by
    rw [runCalls_cell_other _ cs _ s.ctx (Ne.symm hne), hpar]
  have h2 : ∀ k, ((mail.runCalls s cs (mail.Fork s h).2).cell (mail.Fork s h).1.ctx).Value k
      = (h.cell s.ctx).Value k := by
    intro k
    rw [runCalls_cell_other _ cs _ _ hne]
    exact hchildV k
  refine ⟨?_, ?_, ?_, ?_, ?_, ?_, ?_, ?_, ?_, ?_, ?_, ?_, ?_⟩
  · intro k
    exact hchildV k
  · intro k
    simp only [mail.Value, hpar]
  · simp only [mail.From, hchildV]
  · simp only [mail.To, hchildV]
  · simp only [mail.Payload, hchildV]
  · intro k
    simp only [mail.Value, h1]
  · simp only [mail.From, h1]
  · simp only [mail.To, h1]
  · simp only [mail.Payload, h1]
  · intro k
    exact h2 k
  · simp only [mail.From, h2]
  · simp only [mail.To, h2]
  · simp only [mail.Payload, h2]

theorem fork_independent_witness :
    (0 < demoHeap.next) ∧
    mail.To { ctx := 0 }
      (mail.runCalls (mail.Fork { ctx := 0 } demoHeap).1 [.withFromTo "x" "y"]
        (mail.Fork { ctx := 0 } demoHeap).2) = "dst" :=
  ⟨by decide,
    ((fork_independent { ctx := 0 } demoHeap (by decide)
      [.withFromTo "x" "y"]).2.2.2.2.2.2.2.1).trans (by decide)⟩

/-! ### The queue component -/

/-- C9. `postMessage` hands at most one session to `Postman.Post`.  It hands
none when the body does not unmarshal or `CurrentPort()` fails, and exactly one
when both succeed; the posted session then has `To()` equal to the current
port's URL, `From()` equal to the empty string and `Payload()` equal to the
unmarshalled payload. -/
theorem postMessage_forwards_once {P : Type} (proto : mns.Protocol P)
    (post : mail.defaultSession → Heap P → Option Error) (body : List Nat) (h : Heap P) :
    (mns.postMessage proto post body h).2.length ≤ 1 ∧
    ((mns.postMessage proto post body h).2 ≠ [] ↔
      ∃ payload port, proto.Unmarshal body = .ok payload ∧
        proto.CurrentPort payload = .ok port) ∧
    (∀ e, proto.Unmarshal body = .error e → (mns.postMessage proto post body h).2 = []) ∧
    (∀ payload e, proto.Unmarshal body = .ok payload →
      proto.CurrentPort payload = .error e → (mns.postMessage proto post body h).2 = []) ∧
    (∀ payload port, proto.Unmarshal body = .ok payload →
      proto.CurrentPort payload = .ok port →
      ∃ s, (mns.postMessage proto post body h).2 = [s] ∧
        mail.To s (mns.postMessage proto post body h).1 = port.GetUrl ∧
        mail.From s (mns.postMessage proto post body h).1 = "" ∧
        mail.Payload s (mns.postMessage proto post body h).1 = .payload payload) := by
  unfold mns.postMessage
  cases hu : proto.Unmarshal body with
  | error e => simp
  | ok payload =>
    cases hc : proto.CurrentPort payload with
    | error e =>
      simp [hc]
      intro p2 port hpe
      subst hpe
      rw [hc]
      simp
    | ok port =>
      have key : mail.To (mail.NewSession [] h).1
            (mail.WithFromTo (mail.NewSession [] h).1 "" port.GetUrl
              (mail.WithPayload (mail.NewSession [] h).1 (.payload payload)
                (mail.NewSession [] h).2)) = port.GetUrl ∧
          mail.From (mail.NewSession [] h).1
            (mail.WithFromTo (mail.NewSession [] h).1 "" port.GetUrl
              (mail.WithPayload (mail.NewSession [] h).1 (.payload payload)
                (mail.NewSession [] h).2)) = "" ∧
          mail.Payload (mail.NewSession [] h).1
            (mail.WithFromTo (mail.NewSession [] h).1 "" port.GetUrl
              (mail.WithPayload (mail.NewSession [] h).1 (.payload payload)
                (mail.NewSession [] h).2)) = .payload payload := by
        simp [mail.To, mail.From, mail.Payload, mail.WithFromTo, mail.WithPayload,
          Heap.write, Context.WithValue, Context.Value, Context.find]
      cases hp : post (mail.NewSession [] h).1
          (mail.WithFromTo (mail.NewSession [] h).1 "" port.GetUrl
            (mail.WithPayload (mail.NewSession [] h).1 (.payload payload)
              (mail.NewSession [] h).2)) <;>
        simp [hc, hp, key] <;>
        exact ⟨fun p2 e hpe => by subst hpe; rw [hc]; simp,
          fun p2 port2 hpe h2 => by subst hpe; rw [hc] at h2; cases h2; exact ⟨rfl, rfl⟩⟩

theorem postMessage_forwards_once_witness :
    ∃ s, (mns.postMessage demoProtocol (fun _ _ => none) [7] Heap.empty).2 = [s] ∧
      mail.To s (mns.postMessage demoProtocol (fun _ _ => none) [7] Heap.empty).1
        = "spirit://actors/echo/a" ∧
      mail.From s (mns.postMessage demoProtocol (fun _ _ => none) [7] Heap.empty).1 = "" ∧
      mail.Payload s (mns.postMessage demoProtocol (fun _ _ => none) [7] Heap.empty).1
        = .payload 7 :=
  (postMessage_forwards_once demoProtocol (fun _ _ => none) [7] Heap.empty).2.2.2.2 7
    { Url := "spirit://actors/echo/a", Metadata := [] } rfl rfl

theorem resolved_eq_match (port : CtxValuePort) (key dflt : String) :
    (match mapGet port.Metadata key with
      | some v => v
      | none => dflt) = mns.resolved port key dflt := by
  unfold mns.resolved
  cases mapGet port.Metadata key <;> rfl

/-- The body of `sendMessage` once the port is known, in terms of the resolved
send parameters. -/
theorem sendMessage_eq {P U : Type} (lib : mns.UrlLib U) (proto : mns.Protocol P)
    (send : mns.SendRequest → Option Error) (p : mns.MNSComponent)
    (session : mail.defaultSession) (h : Heap P) (port : CtxValuePort)
    (hport : mail.Value session .CtxKeyPort h = .port port) :
    mns.sendMessage lib proto send p session h =
      match lib.Parse port.To with
      | .error _ => { panicked := false, err := some .parsePortUrlFailure, sent := [] }
      | .ok toURL =>
        if (lib.QueryGet toURL "queue").length = 0 then
          { panicked := false, err := some .queueNameEmpty, sent := [] }
        else if (mns.resolved port "endpoint" p.endpoint).length = 0 ∨
            (mns.resolved port "access-key-id" p.accessKeyId).length = 0 ∨
            (mns.resolved port "access-key-secret" p.accessKeySecret).length = 0 then
          { panicked := false, err := some (.mnsSendParams port.To), sent := [] }
        else
          match mail.Payload session h with
          | .payload payload =>
            match proto.ToBytes payload with
            | .error e => { panicked := false, err := some e, sent := [] }
            | .ok data =>
              { panicked := false,
                err := send
                  { endpoint := mns.resolved port "endpoint" p.endpoint,
                    accessKeyId := mns.resolved port "access-key-id" p.accessKeyId,
                    accessKeySecret :=
                      mns.resolved port "access-key-secret" p.accessKeySecret,
                    queueName := lib.QueryGet toURL "queue", MessageBody := data,
                    Priority := 8 },
                sent :=
                  [{ endpoint := mns.resolved port "endpoint" p.endpoint,
                     accessKeyId := mns.resolved port "access-key-id" p.accessKeyId,
                     accessKeySecret :=
                       mns.resolved port "access-key-secret" p.accessKeySecret,
                     queueName := lib.QueryGet toURL "queue", MessageBody := data,
                     Priority := 8 }] }
          | _ => { panicked := true, err := none, sent := [] } := by
  unfold mns.sendMessage
  rw [hport]
  simp only [resolved_eq_match]

/-- C10. For a port handed to `sendMessage`, each of the three send parameters
(endpoint, access-key-id, access-key-secret) is the value of that key in the
port's metadata when the key is present and the configured default otherwise.
`sendMessage` returns an error and sends nothing when the port URL does not
parse, when the `queue` query parameter is empty, or when one of the three
resolved parameters is empty; in every other case in which the payload
serialises it hands exactly one request, with the resolved parameters, the
queue name, the serialised payload and priority 8, to the queue client and
returns the client's result. -/
theorem sendMessage_parameters {P U : Type} (lib : mns.UrlLib U) (proto : mns.Protocol P)
    (send : mns.SendRequest → Option Error) (p : mns.MNSComponent)
    (session : mail.defaultSession) (h : Heap P) (port : CtxValuePort)
    (hport : mail.Value session .CtxKeyPort h = .port port) :
    (∀ key dflt v, mapGet port.Metadata key = some v → mns.resolved port key dflt = v) ∧
    (∀ key dflt, mapGet port.Metadata key = none → mns.resolved port key dflt = dflt) ∧
    (∀ e, lib.Parse port.To = .error e →
      mns.sendMessage lib proto send p session h
        = { panicked := false, err := some .parsePortUrlFailure, sent := [] }) ∧
    (∀ u, lib.Parse port.To = .ok u → lib.QueryGet u "queue" = "" →
      mns.sendMessage lib proto send p session h
        = { panicked := false, err := some .queueNameEmpty, sent := [] }) ∧
    (∀ u, lib.Parse port.To = .ok u → lib.QueryGet u "queue" ≠ "" →
      (mns.resolved port "endpoint" p.endpoint = "" ∨
        mns.resolved port "access-key-id" p.accessKeyId = "" ∨
        mns.resolved port "access-key-secret" p.accessKeySecret = "") →
      mns.sendMessage lib proto send p session h
        = { panicked := false, err := some (.mnsSendParams port.To), sent := [] }) ∧
    (((∃ e, lib.Parse port.To = .error e) ∨
        (∃ u, lib.Parse port.To = .ok u ∧ lib.QueryGet u "queue" = "") ∨
        mns.resolved port "endpoint" p.endpoint = "" ∨
        mns.resolved port "access-key-id" p.accessKeyId = "" ∨
        mns.resolved port "access-key-secret" p.accessKeySecret = "") →
      (mns.sendMessage lib proto send p session h).err ≠ none ∧
      (mns.sendMessage lib proto send p session h).sent = [] ∧
      (mns.sendMessage lib proto send p session h).panicked = false) ∧
    (∀ u payload data, lib.Parse port.To = .ok u → lib.QueryGet u "queue" ≠ "" →
      mns.resolved port "endpoint" p.endpoint ≠ "" →
      mns.resolved port "access-key-id" p.accessKeyId ≠ "" →
      mns.resolved port "access-key-secret" p.accessKeySecret ≠ "" →
      mail.Payload session h = .payload payload → proto.ToBytes payload = .ok data →
      (mns.sendMessage lib proto send p session h).sent
        = [{ endpoint := mns.resolved port "endpoint" p.endpoint,
             accessKeyId := mns.resolved port "access-key-id" p.accessKeyId,
             accessKeySecret := mns.resolved port "access-key-secret" p.accessKeySecret,
             queueName := lib.QueryGet u "queue", MessageBody := data, Priority := 8 }] ∧
      (mns.sendMessage lib proto send p session h).err
        = send { endpoint := mns.resolved port "endpoint" p.endpoint,
                 accessKeyId := mns.resolved port "access-key-id" p.accessKeyId,
                 accessKeySecret := mns.resolved port "access-key-secret" p.accessKeySecret,
                 queueName := lib.QueryGet u "queue", MessageBody := data, Priority := 8 } ∧
      (mns.sendMessage lib proto send p session h).panicked = false) := by
  rw [sendMessage_eq lib proto send p session h port hport]
  refine ⟨?_, ?_, ?_⟩
  · intro key dflt v hv
    simp [mns.resolved, hv]
  · intro key dflt hv
    simp [mns.resolved, hv]
  cases hp : lib.Parse port.To with
  | error e0 => simp
  | ok u0 =>
    by_cases hq : lib.QueryGet u0 "queue" = ""
    · simp [string_length_eq_zero, hq]
      intro u payload data hu hqu
      subst hu
      exact absurd hq hqu
    · by_cases h1 : mns.resolved port "endpoint" p.endpoint = ""
      · simp [string_length_eq_zero, hq, h1]
      · by_cases h2 : mns.resolved port "access-key-id" p.accessKeyId = ""
        · simp [string_length_eq_zero, hq, h1, h2]
        · by_cases h3 : mns.resolved port "access-key-secret" p.accessKeySecret = ""
          · simp [string_length_eq_zero, hq, h1, h2, h3]
          · simp only [string_length_eq_zero, hq, h1, h2, h3, if_false, or_self]
            refine ⟨by simp, ?_, ?_, ?_, ?_⟩
            · intro u hu hqu
              cases hu
              exact absurd hqu hq
            · intro u _ _ hor
              rcases hor with hh | hh | hh
            · intro hor
              rcases hor with ⟨e, he⟩ | ⟨u, hu, hqu⟩ | hh | hh | hh
              · cases he
              · cases hu
                exact absurd hqu hq
            · intro u payload data hu _ _ _ _ hpay hbytes
              cases hu
              rw [hpay]
              simp only [hbytes]
              exact ⟨trivial, trivial, trivial⟩

theorem sendMessage_parameters_witness :
    (mns.sendMessage demoUrlLib demoProtocol (fun _ => none) demoComponent { ctx := 0 }
        sendHeap).sent
      = [{ endpoint := "http://override", accessKeyId := "id", accessKeySecret := "secret",
           queueName := "q1", MessageBody := [7], Priority := 8 }] :=
  ((sendMessage_parameters demoUrlLib demoProtocol (fun _ => none) demoComponent { ctx := 0 }
      sendHeap demoPort rfl).2.2.2.2.2.2 "mns://send?queue=q1" 7 [7] rfl (by decide)
      (by decide) (by decide) (by decide) rfl rfl).1

end GoSpirit
